import Mathlib

/-!
# Game Time Tracker - verification of the session/ledger core

Shallow embedding of the time-tracking core of the application
(the storage utilities, elapsed-time computation, date utilities,
stats calculations, and the timer state machine of the page
component).  Timestamps are integers (milliseconds since the Unix
epoch), durations are integers (tenths of a second), and the daily
totals object is an association list in key-insertion order, as a
JavaScript object is.

JavaScript builtins used by the code are modelled explicitly:
`Math.floor` division by a positive constant is `Int.ediv`,
`Date.prototype.toISOString` uses the proleptic Gregorian calendar in
UTC (civil-from-days / days-from-civil conversions), the local-time
accessors `getDay` / `getDate` / `setDate` are parameterised by the
observer's fixed timezone offset in minutes (the value of
`Date.prototype.getTimezoneOffset`, UTC minus local), `parseInt` reads
an optional sign and leading decimal digits, and JavaScript truthiness
of the involved values (`null`, `0`, `NaN`, `""` are falsy) is spelled
out where the code branches on it.
-/

namespace GameTime

/-- Constant from the source: `MAX_SESSION_HOURS = 24`. -/
def MAX_SESSION_HOURS : Int := 24

/-- Constant from the source: 24 hours in tenths of a second. -/
def MAX_SESSION_TENTHS : Int := MAX_SESSION_HOURS * 60 * 60 * 10

/-- The `DailyTotals` object: date string keys to tenths-of-a-second
values, in key-insertion order. -/
abbrev DailyTotals := List (String × Int)

/-- JavaScript property read `d[k]` combined with the `|| 0` default the
code applies at every read site (first matching key; 0 when absent). -/
def lookupD (d : DailyTotals) (k : String) : Int :=
  match d with
  | [] => 0
  | (k2, v) :: rest => if k2 = k then v else lookupD rest k

/-- The spread update `{ ...prev, [k]: (prev[k] || 0) + v }`: the
existing key keeps its position and gains `v`; a new key is appended
with value `v`.  (For a present value `v2`, `(v2 || 0) + v = v2 + v`
also when `v2 = 0`.) -/
def updateAdd (d : DailyTotals) (k : String) (v : Int) : DailyTotals :=
  match d with
  | [] => [(k, v)]
  | (k2, v2) :: rest =>
    if k2 = k then (k, v2 + v) :: rest else (k2, v2) :: updateAdd rest k v

/-- Sum of the values of a daily-totals object. -/
def sumValues : DailyTotals → Int
  | [] => 0
  | (_, v) :: rest => v + sumValues rest

/-- `Object.keys`. -/
def keysOf (d : DailyTotals) : List String := d.map Prod.fst

/-- The `reduce((sum, date) => sum + (d[date] || 0), 0)` pattern used by
`calculateWeekTotal`, `calculateWeekAverage` and
`calculateOverallAverage`. -/
def sumOverKeys (d : DailyTotals) (ks : List String) : Int :=
  ks.foldl (fun s k => s + lookupD d k) 0

/-- `calculateElapsedTenths`: `Math.floor((now - startTimestamp) / 100)`.
Integer `/` on `Int` is floor division for the positive divisor 100, so
a clock running backwards yields a non-positive result exactly as in
JS. -/
def calculateElapsedTenths (now startTimestamp : Int) : Int :=
  (now - startTimestamp) / 100

/-! ## Calendar model (JavaScript `Date` builtins) -/

/-- A civil (proleptic Gregorian) date. -/
structure Civil where
  y : Int
  m : Int
  d : Int
deriving DecidableEq

/-- Month and day-of-month from the day-of-year of the March-starting
year (0 = March 1, leap day at 365): the standard shifted-month
formula. -/
def monthFromDoy (doy : Int) : Int × Int :=
  let mp := (5 * doy + 2) / 153
  (mp + (if mp < 10 then 3 else -9), doy - (153 * mp + 2) / 5 + 1)

/-- Day-of-year of the March-starting year from month and day-of-month;
linear in the day argument, which is how JavaScript `setDate`
normalises out-of-range day numbers. -/
def doyFromMonth (m d : Int) : Int :=
  (153 * (m + (if 2 < m then -3 else 9)) + 2) / 5 + d - 1

/-- Day number since 1970-01-01 to civil date (model of the proleptic
Gregorian calendar used by `Date.prototype.toISOString`): decompose
into 400-year era, century, 4-year block and year, then month/day. -/
def civilFromDays (z0 : Int) : Civil :=
  let z := z0 + 719468
  let era := z / 146097
  let doe := z % 146097
  let c := if 3 ≤ doe / 36524 then 3 else doe / 36524
  let rem1 := doe - c * 36524
  let b := rem1 / 1461
  let rem2 := rem1 - b * 1461
  let yy := if 3 ≤ rem2 / 365 then 3 else rem2 / 365
  let doy := rem2 - yy * 365
  let yoe := c * 100 + b * 4 + yy
  let y := yoe + era * 400
  let md := monthFromDoy doy
  ⟨if md.1 ≤ 2 then y + 1 else y, md.1, md.2⟩

/-- Civil date to day number since 1970-01-01 (inverse of
`civilFromDays`). -/
def daysFromCivil (y0 m d : Int) : Int :=
  let y := if m ≤ 2 then y0 - 1 else y0
  let era := y / 400
  let yoe := y - era * 400
  era * 146097 + (yoe * 365 + yoe / 4 - yoe / 100 + doyFromMonth m d) - 719468

/-- Two decimal digits, zero padded. -/
def digitChar2 (n : Int) : List Char :=
  [Nat.digitChar (n.toNat / 10 % 10), Nat.digitChar (n.toNat % 10)]

/-- Four decimal digits, zero padded. -/
def digitChar4 (n : Int) : List Char :=
  [Nat.digitChar (n.toNat / 1000 % 10), Nat.digitChar (n.toNat / 100 % 10),
   Nat.digitChar (n.toNat / 10 % 10), Nat.digitChar (n.toNat % 10)]

/-- `YYYY-MM-DD` rendering of a civil date (the date part of
`toISOString` for years 0-9999). -/
def formatCivil (c : Civil) : String :=
  String.mk (digitChar4 c.y ++ '-' :: digitChar2 c.m ++ '-' :: digitChar2 c.d)

/-- `getDateString`: `date.toISOString().split("T")[0]` - the UTC
calendar date of the instant, formatted `YYYY-MM-DD`. -/
def getDateString (ms : Int) : String :=
  formatCivil (civilFromDays (ms / 86400000))

/-- Local-time day number for an observer with timezone offset
`offsetMin` minutes (JS `getTimezoneOffset`: UTC minus local). -/
def localDays (ms offsetMin : Int) : Int :=
  (ms - offsetMin * 60000) / 86400000

/-- Milliseconds into the local day. -/
def localMsOfDay (ms offsetMin : Int) : Int :=
  (ms - offsetMin * 60000) % 86400000

/-- Model of `Date.prototype.getDay` (0 = Sunday .. 6 = Saturday, local
time; 1970-01-01 was a Thursday). -/
def getDay (ms offsetMin : Int) : Int :=
  (localDays ms offsetMin + 4) % 7

/-- Model of `Date.prototype.getDate` (local day of month). -/
def getDateOfMonth (ms offsetMin : Int) : Int :=
  (civilFromDays (localDays ms offsetMin)).d

/-- Model of `Date.prototype.setDate n`: keep the local time of day,
set the local day of month to `n`, normalising through adjacent
months; returns the new timestamp. -/
def setDate (ms offsetMin n : Int) : Int :=
  let c := civilFromDays (localDays ms offsetMin)
  daysFromCivil c.y c.m n * 86400000 + localMsOfDay ms offsetMin + offsetMin * 60000

/-- `getStartOfWeek`: `diff = d.getDate() - day + (day === 0 ? -6 : 1)`
then `new Date(d.setDate(diff))`. -/
def getStartOfWeek (ms offsetMin : Int) : Int :=
  let day := getDay ms offsetMin
  let diff := getDateOfMonth ms offsetMin - day + (if day = 0 then -6 else 1)
  setDate ms offsetMin diff

/-- `getDatesInWeek`: the seven `getDateString`s of
`setDate(start, start.getDate() + i)` for `i = 0..6`. -/
def getDatesInWeek (ms offsetMin : Int) : List String :=
  let start := getStartOfWeek ms offsetMin
  (List.range 7).map
    (fun i => getDateString (setDate start offsetMin (getDateOfMonth start offsetMin + Int.ofNat i)))

/-! ## Stats calculations -/

/-- `calculateWeekAverage`: week total over the seven week dates,
divided by 7 (exact rational division models the JS `/`). -/
def calculateWeekAverage (d : DailyTotals) (now offsetMin : Int) : ℚ :=
  (sumOverKeys d (getDatesInWeek now offsetMin) : ℚ) / 7

/-- `calculateOverallAverage`: 0 when `Object.keys` is empty, otherwise
the sum re-derived over the keys divided by the number of keys. -/
def calculateOverallAverage (d : DailyTotals) : ℚ :=
  if (keysOf d).length = 0 then 0
  else (sumOverKeys d (keysOf d) : ℚ) / ((keysOf d).length : ℚ)

/-! ## Session state machine -/

/-- The three persisted entries, already parsed (the raw string layer
is modelled separately below). -/
structure Storage where
  daily : DailyTotals
  overall : Int
  sessionStart : Option Int
deriving DecidableEq

/-- Component state: React state plus the `sessionStartRef` ref and the
persistent store. -/
structure AppState where
  sessionTime : Int
  isTracking : Bool
  dailyTotals : DailyTotals
  overallTotal : Int
  sessionStartRef : Option Int
  store : Storage
deriving DecidableEq

/-- JS truthiness of `sessionStartRef.current : number | null`
(`null` and `0` are falsy). -/
def refTruthy : Option Int → Bool
  | none => false
  | some n => n != 0

/-- A concrete Active state (session started at timestamp 1000000 ms,
empty ledger) used to instantiate theorems at concrete inputs. -/
def sActive : AppState :=
  ⟨0, true, [], 0, some 1000000, ⟨[], 0, some 1000000⟩⟩

/-- The concrete empty Idle state. -/
def sIdle : AppState :=
  ⟨0, false, [], 0, none, ⟨[], 0, none⟩⟩

/-- The commit step of `handleTimer` (the Totals Ledger `commit`):
add the saved duration to today's daily entry and to the overall
total. -/
def commitLedger (d : DailyTotals) (overall : Int) (date : String) (v : Int) :
    DailyTotals × Int :=
  (updateAdd d date v, overall + v)

/-- `handleTimer`, the start/stop click handler, evaluated at instant
`now` (`Date.now()` and `new Date()` inside the handler are the same
instant). -/
def handleTimer (now : Int) (s : AppState) : AppState :=
  if s.isTracking then
    let s1 :=
      if refTruthy s.sessionStartRef then
        let start := s.sessionStartRef.getD 0
        let timeToSave := calculateElapsedTenths now start
        if timeToSave > 0 ∧ timeToSave ≤ MAX_SESSION_TENTHS then
          let today := getDateString now
          let committed := commitLedger s.dailyTotals s.overallTotal today timeToSave
          { s with dailyTotals := committed.1, overallTotal := committed.2,
                   store := { s.store with daily := committed.1, overall := committed.2 } }
        else s
      else s
    { s1 with store := { s1.store with sessionStart := none },
              sessionStartRef := none, isTracking := false, sessionTime := 0 }
  else
    { s with sessionStartRef := some now,
             store := { s.store with sessionStart := some now },
             isTracking := true }

/-- One firing of the 100ms interval callback at instant `now` (the
interval only exists while `isTracking` with a truthy ref, and the
callback re-checks the ref). -/
def timerTick (now : Int) (s : AppState) : AppState :=
  if s.isTracking ∧ refTruthy s.sessionStartRef then
    let start := s.sessionStartRef.getD 0
    let elapsed := calculateElapsedTenths now start
    if elapsed > MAX_SESSION_TENTHS then
      { s with store := { s.store with sessionStart := none },
               sessionStartRef := none, isTracking := false, sessionTime := 0 }
    else { s with sessionTime := elapsed }
  else s

/-- `handleDiscardSession`. -/
def handleDiscardSession (s : AppState) : AppState :=
  { s with store := { s.store with sessionStart := none },
           sessionStartRef := none, isTracking := false, sessionTime := 0 }

/-- The mount effect (load from storage and restore a persisted
session), for well-parsed storage values; the raw string layer is
`load` below.  `if (savedSessionStart)` is falsy for `null` and `0`. -/
def initState (now : Int) (store : Storage) : AppState :=
  let s0 : AppState := ⟨0, false, [], 0, none, store⟩
  let s1 :=
    if store.daily.length > 0 ∨ store.overall > 0 then
      { s0 with dailyTotals := store.daily, overallTotal := store.overall }
    else s0
  match store.sessionStart with
  | some start =>
    if start ≠ 0 then
      let elapsed := calculateElapsedTenths now start
      if elapsed > MAX_SESSION_TENTHS then
        { s1 with store := { s1.store with sessionStart := none } }
      else
        { s1 with sessionStartRef := some start, sessionTime := elapsed, isTracking := true }
    else s1
  | none => s1

/-! ## Raw persisted-string layer -/

/-- A JavaScript number that may be `NaN` (as produced by `parseInt` on
a non-numeric string). -/
inductive JSNum where
  | nan : JSNum
  | num : Int → JSNum
deriving DecidableEq

/-- JS truthiness of a number (`0` and `NaN` are falsy). -/
def JSNum.truthy : JSNum → Bool
  | .nan => false
  | .num n => n != 0

/-- The comparison `x > 0` (false for `NaN`). -/
def JSNum.gtZero : JSNum → Bool
  | .nan => false
  | .num n => 0 < n

/-- Model of `parseInt(s, 10)`: skip leading spaces, optional sign,
then leading decimal digits; `NaN` when no digit is found. -/
def parseIntModel (s : String) : JSNum :=
  let cs := s.data.dropWhile (fun c => c == ' ')
  let signed : Bool × List Char :=
    match cs with
    | '-' :: rest => (true, rest)
    | '+' :: rest => (false, rest)
    | _ => (false, cs)
  let digits := signed.2.takeWhile (fun c => c.isDigit)
  if digits = [] then JSNum.nan
  else
    let n : Nat := digits.foldl (fun a c => a * 10 + (c.toNat - 48)) 0
    JSNum.num (if signed.1 then -(n : Int) else (n : Int))

/-- The raw stored value under the daily-totals key: absent, a JSON
text denoting a totals object, or a malformed JSON text (on which
`JSON.parse` throws). -/
inductive DailyStored where
  | absent : DailyStored
  | json : DailyTotals → DailyStored
  | corrupt : DailyStored
deriving DecidableEq

/-- The three raw persisted entries (`None` = key absent). -/
structure RawStorage where
  daily : DailyStored
  overall : Option String
  session : Option String

/-- `getDailyTotals`: `stored ? JSON.parse(stored) : {}` - an uncaught
exception from `JSON.parse` propagates, modelled as `Except.error`. -/
def getDailyTotalsRaw : DailyStored → Except Unit DailyTotals
  | .absent => .ok []
  | .json d => .ok d
  | .corrupt => .error ()

/-- `getOverallTotal`: `stored ? parseInt(stored, 10) : 0` (the empty
string is falsy and also yields 0). -/
def getOverallTotalRaw : Option String → JSNum
  | none => JSNum.num 0
  | some s => if s = "" then JSNum.num 0 else parseIntModel s

/-- `getSessionStart`: `stored ? parseInt(stored, 10) : null`. -/
def getSessionStartRaw : Option String → Option JSNum
  | none => none
  | some s => if s = "" then none else some (parseIntModel s)

/-- What the mount effect computes from raw storage: the state fields
it would set, plus whether it called `clearSessionStart`. -/
structure LoadResult where
  dailyTotals : DailyTotals
  overallTotal : JSNum
  isTracking : Bool
  sessionTime : Int
  sessionStartRef : Option JSNum
  sessionCleared : Bool
deriving DecidableEq

/-- The mount effect over the raw persisted strings, at instant `now`.
An uncaught `JSON.parse` exception aborts the whole load
(`Except.error`). -/
def load (now : Int) (r : RawStorage) : Except Unit LoadResult :=
  match getDailyTotalsRaw r.daily with
  | .error e => .error e
  | .ok loadedDailyTotals =>
    let loadedOverallTotal := getOverallTotalRaw r.overall
    let savedSessionStart := getSessionStartRaw r.session
    let s0 : LoadResult := ⟨[], JSNum.num 0, false, 0, none, false⟩
    let s1 :=
      if loadedDailyTotals.length > 0 ∨ loadedOverallTotal.gtZero then
        { s0 with dailyTotals := loadedDailyTotals, overallTotal := loadedOverallTotal }
      else s0
    match savedSessionStart with
    | some v =>
      if v.truthy then
        match v with
        | .num start =>
          let elapsed := calculateElapsedTenths now start
          if elapsed > MAX_SESSION_TENTHS then
            .ok { s1 with sessionCleared := true }
          else
            .ok { s1 with sessionStartRef := some v, sessionTime := elapsed,
                          isTracking := true }
        | .nan => .ok s1
      else .ok s1
    | none => .ok s1

/-! ## Definitions following the spec's words (for comparison with the
code); the spec places calendar-date keys in the observer's local
calendar and the week window at the local Monday. -/

/-- Modelled from the spec: the observer's local calendar date of an
instant, `YYYY-MM-DD`. -/
def specLocalDateString (ms offsetMin : Int) : String :=
  formatCivil (civilFromDays (localDays ms offsetMin))

/-- Modelled from the spec: the Monday on or before local day `z`
(day-of-week 0 = Sunday, Monday-starting week). -/
def specMondayOf (z : Int) : Int :=
  z - ((z + 4) % 7 + 6) % 7

/-- Modelled from the spec: the 7 calendar dates of the Monday-starting
week containing the instant, in the observer's local calendar. -/
def specWeekDates (ms offsetMin : Int) : List String :=
  (List.range 7).map
    (fun i => formatCivil (civilFromDays (specMondayOf (localDays ms offsetMin) + Int.ofNat i)))

/-- Modelled from the spec: sum of the entries of the 7 week dates,
divided by 7. -/
def specWeekAverage (d : DailyTotals) (ms offsetMin : Int) : ℚ :=
  (sumOverKeys d (specWeekDates ms offsetMin) : ℚ) / 7

/-- The ledger invariant: the redundant overall total equals the sum of
the daily totals. -/
def inv (s : AppState) : Prop :=
  s.overallTotal = sumValues s.dailyTotals

instance (s : AppState) : Decidable (inv s) := by
  unfold inv; infer_instance

/-! ## Calendar lemmas -/

/-- Sanity check of the calendar model: the epoch is 1970-01-01. -/
theorem civilFromDays_epoch : civilFromDays 0 = ⟨1970, 1, 1⟩ := by decide

/-- Sanity check of the calendar model: day 11016 is the leap day
2000-02-29 and day 19723 is 2024-01-01. -/
theorem civilFromDays_samples :
    civilFromDays 11016 = ⟨2000, 2, 29⟩ ∧ civilFromDays 19723 = ⟨2024, 1, 1⟩ ∧
    civilFromDays (-1) = ⟨1969, 12, 31⟩ := by decide

/-- The month/day mapping inverts the day-of-year mapping on the
March-based year. -/
theorem doyFromMonth_monthFromDoy (doy : Int) (h0 : 0 ≤ doy) (h1 : doy ≤ 365) :
    doyFromMonth (monthFromDoy doy).1 (monthFromDoy doy).2 = doy := by
  unfold monthFromDoy doyFromMonth
  dsimp only
  set mp := (5 * doy + 2) / 153 with hmp
  clear_value mp
  have hmpb : 0 ≤ mp ∧ mp ≤ 11 := by omega
  rcases lt_or_le mp 10 with h | h
  · simp only [if_pos h]
    rw [if_pos (show (2 : Int) < mp + 3 by omega)]
    rw [show mp + 3 + -3 = mp by ring]
    omega
  · simp only [if_neg (not_lt.mpr h)]
    rw [if_neg (show ¬((2 : Int) < mp + -9) by omega)]
    rw [show mp + -9 + 9 = mp by ring]
    omega

/-- The civil conversions are mutually inverse: converting a day number
to a date and back is the identity. -/
theorem daysFromCivil_civilFromDays (z : Int) :
    daysFromCivil (civilFromDays z).y (civilFromDays z).m (civilFromDays z).d = z := by
  unfold civilFromDays
  dsimp only
  generalize hera : (z + 719468) / 146097 = era
  generalize hdoe : (z + 719468) % 146097 = doe
  have hzd : 0 ≤ doe ∧ doe < 146097 ∧ z + 719468 = era * 146097 + doe := by omega
  generalize hc1 : doe / 36524 = c1
  set C := if 3 ≤ c1 then 3 else c1 with hC
  clear_value C
  have hCb : 0 ≤ C ∧ C ≤ 3 ∧ C * 36524 ≤ doe ∧ doe - C * 36524 ≤ 36524 := by
    rw [hC]; split_ifs <;> omega
  generalize hb : (doe - C * 36524) / 1461 = b
  have hbb : 0 ≤ b ∧ b ≤ 24 ∧ 0 ≤ doe - C * 36524 - b * 1461 ∧
      doe - C * 36524 - b * 1461 ≤ 1460 := by
    omega
  generalize hyy1 : (doe - C * 36524 - b * 1461) / 365 = yy1
  set YY := if 3 ≤ yy1 then 3 else yy1 with hYY
  clear_value YY
  have hYYb : 0 ≤ YY ∧ YY ≤ 3 ∧ 0 ≤ doe - C * 36524 - b * 1461 - YY * 365 ∧
      doe - C * 36524 - b * 1461 - YY * 365 ≤ 365 := by
    rw [hYY]; split_ifs <;> omega
  set doy := doe - C * 36524 - b * 1461 - YY * 365 with hdoy
  clear_value doy
  have hdoyb : 0 ≤ doy ∧ doy ≤ 365 := by omega
  have hrt := doyFromMonth_monthFromDoy doy hdoyb.1 hdoyb.2
  unfold daysFromCivil
  dsimp only
  set M := (monthFromDoy doy).1 with hM
  clear_value M
  rw [hrt]
  have hg : (C * 100 + b * 4 + YY + era * 400) / 400 = era := by omega
  have h4 : (C * 100 + b * 4 + YY + era * 400 - era * 400) / 4 = C * 25 + b := by omega
  have h100 : (C * 100 + b * 4 + YY + era * 400 - era * 400) / 100 = C := by omega
  rcases le_or_lt M 2 with h2 | h2
  · simp only [if_pos h2]
    rw [show C * 100 + b * 4 + YY + era * 400 + 1 - 1 = C * 100 + b * 4 + YY + era * 400 by
      ring]
    rw [hg, h4, h100]
    omega
  · simp only [if_neg (not_le.mpr h2)]
    rw [hg, h4, h100]
    omega

/-- `daysFromCivil` is linear in the day-of-month argument. -/
theorem daysFromCivil_add (y m d i : Int) :
    daysFromCivil y m (d + i) = daysFromCivil y m d + i := by
  unfold daysFromCivil doyFromMonth
  dsimp only
  split_ifs <;> omega

/-- `daysFromCivil` of a converted date at an arbitrary day-of-month
argument. -/
theorem daysFromCivil_any (Z n : Int) :
    daysFromCivil (civilFromDays Z).y (civilFromDays Z).m n =
      Z + (n - (civilFromDays Z).d) := by
  have h := daysFromCivil_add (civilFromDays Z).y (civilFromDays Z).m
    (civilFromDays Z).d (n - (civilFromDays Z).d)
  rw [daysFromCivil_civilFromDays,
    show (civilFromDays Z).d + (n - (civilFromDays Z).d) = n from by ring] at h
  exact h

/-- The milliseconds into the local day are in `[0, 86400000)`. -/
theorem localMsOfDay_bounds (ms off : Int) :
    0 ≤ localMsOfDay ms off ∧ localMsOfDay ms off < 86400000 := by
  unfold localMsOfDay; omega

/-- `setDate` expressed through local day numbers. -/
theorem setDate_eq (ms off n : Int) :
    setDate ms off n =
      (localDays ms off + (n - (civilFromDays (localDays ms off)).d)) * 86400000 +
        localMsOfDay ms off + off * 60000 := by
  unfold setDate
  dsimp only
  rw [daysFromCivil_any]

/-- `setDate` shifts the local day number by the requested amount and
keeps the local time of day. -/
theorem localDays_setDate (ms off n : Int) :
    localDays (setDate ms off n) off =
      localDays ms off + (n - (civilFromDays (localDays ms off)).d) ∧
    localMsOfDay (setDate ms off n) off = localMsOfDay ms off := by
  rw [setDate_eq]
  unfold localDays localMsOfDay
  omega

/-- `getStartOfWeek` lands on the local Monday of the week containing
the instant (and keeps the local time of day). -/
theorem localDays_getStartOfWeek (ms : Int) :
    localDays (getStartOfWeek ms 0) 0 = specMondayOf (localDays ms 0) ∧
    localMsOfDay (getStartOfWeek ms 0) 0 = localMsOfDay ms 0 := by
  unfold getStartOfWeek getDay getDateOfMonth
  dsimp only
  have h := localDays_setDate ms 0
    ((civilFromDays (localDays ms 0)).d - (localDays ms 0 + 4) % 7 +
      (if (localDays ms 0 + 4) % 7 = 0 then -6 else 1))
  refine ⟨?_, h.2⟩
  rw [h.1]
  unfold specMondayOf
  split_ifs <;> omega

/-- One entry of the code's week window, at UTC offset 0: the date
string of the `i`-th day after the window start. -/
theorem weekDate_eq (S i : Int) :
    getDateString (setDate S 0 (getDateOfMonth S 0 + i)) =
      formatCivil (civilFromDays (localDays S 0 + i)) := by
  unfold getDateOfMonth
  rw [setDate_eq]
  unfold getDateString
  refine congrArg formatCivil (congrArg civilFromDays ?_)
  unfold localDays localMsOfDay
  omega

/-- At UTC offset 0 the code's week window is exactly the Monday-starting
week containing the instant. -/
theorem getDatesInWeek_offset0 (now : Int) :
    getDatesInWeek now 0 = specWeekDates now 0 := by
  unfold getDatesInWeek specWeekDates
  dsimp only
  have hfun : (fun i : ℕ =>
      getDateString (setDate (getStartOfWeek now 0) 0
        (getDateOfMonth (getStartOfWeek now 0) 0 + Int.ofNat i))) =
      (fun i : ℕ =>
        formatCivil (civilFromDays (specMondayOf (localDays now 0) + Int.ofNat i))) := by
    funext i
    rw [weekDate_eq, (localDays_getStartOfWeek now).1]
  rw [hfun]

/-! ## Ledger lemmas -/

/-- Updating a key adds to its looked-up value. -/
theorem lookupD_updateAdd_self (d : DailyTotals) (k : String) (v : Int) :
    lookupD (updateAdd d k v) k = lookupD d k + v := by
  induction d with
  | nil => simp [lookupD, updateAdd]
  | cons p rest ih =>
    obtain ⟨k2, v2⟩ := p
    by_cases h : k2 = k
    · subst h; simp [lookupD, updateAdd]
    · simp [lookupD, updateAdd, h, ih]

/-- Updating a key leaves other keys' looked-up values unchanged. -/
theorem lookupD_updateAdd_ne (d : DailyTotals) (k q : String) (v : Int) (hne : q ≠ k) :
    lookupD (updateAdd d k v) q = lookupD d q := by
  have hkq : ¬(k = q) := fun he => hne he.symm
  induction d with
  | nil => simp [lookupD, updateAdd, hkq]
  | cons p rest ih =>
    obtain ⟨k2, v2⟩ := p
    by_cases h : k2 = k
    · subst h
      simp [lookupD, updateAdd, hkq]
    · simp [lookupD, updateAdd, h, ih]

/-- Updating a key adds the committed value to the sum of all values. -/
theorem sumValues_updateAdd (d : DailyTotals) (k : String) (v : Int) :
    sumValues (updateAdd d k v) = sumValues d + v := by
  induction d with
  | nil => simp [sumValues, updateAdd]
  | cons p rest ih =>
    obtain ⟨k2, v2⟩ := p
    by_cases h : k2 = k
    · subst h; simp [sumValues, updateAdd]; ring
    · simp [sumValues, updateAdd, h, ih]; ring

/-- The `reduce` pattern is the sum of the looked-up values. -/
theorem sumOverKeys_eq (dd : DailyTotals) (ks : List String) :
    sumOverKeys dd ks = (ks.map (lookupD dd)).sum := by
  unfold sumOverKeys
  suffices h : ∀ a : Int, ks.foldl (fun s k => s + lookupD dd k) a =
      a + (ks.map (lookupD dd)).sum by
    rw [h 0]; ring
  induction ks with
  | nil => intro a; simp
  | cons k rest ih =>
    intro a
    simp only [List.foldl_cons, List.map_cons, List.sum_cons, ih]
    ring

/-- On an object with distinct keys, re-summing over `Object.keys`
recovers the sum of the values. -/
theorem sumOverKeys_keysOf (d : DailyTotals) (h : (keysOf d).Nodup) :
    sumOverKeys d (keysOf d) = sumValues d := by
  induction d with
  | nil => rfl
  | cons p rest ih =>
    obtain ⟨k, v⟩ := p
    have hcons : (k :: keysOf rest).Nodup := h
    have hk : k ∉ keysOf rest := (List.nodup_cons.mp hcons).1
    have hrest : (keysOf rest).Nodup := (List.nodup_cons.mp hcons).2
    rw [sumOverKeys_eq]
    have hkeys : keysOf ((k, v) :: rest) = k :: keysOf rest := rfl
    rw [hkeys, List.map_cons, List.sum_cons]
    have hhead : lookupD ((k, v) :: rest) k = v := by simp [lookupD]
    have hmap : (keysOf rest).map (lookupD ((k, v) :: rest)) =
        (keysOf rest).map (lookupD rest) := by
      refine List.map_congr_left ?_
      intro q hq
      have hqk : ¬(k = q) := fun he => hk (he ▸ hq)
      simp [lookupD, hqk]
    rw [hhead, hmap, ← sumOverKeys_eq, ih hrest]
    rfl

/-! ## Claim theorems -/

/-- C1: for an Active session with a (truthy) anchor `start`, the stop
branch of `handleTimer` at instant `now` computes
`elapsed = floor((now - start) / 100)` tenths, commits it to the daily
entry for the current date and to the overall total exactly when
`0 < elapsed ≤ 864000`, and clears the persisted session anchor (and
the ref) unconditionally. -/
theorem stop_commits_iff_and_clears (s : AppState) (now start : Int)
    (htr : s.isTracking = true) (href : s.sessionStartRef = some start)
    (hstart : start ≠ 0) :
    (handleTimer now s).isTracking = false ∧
    (handleTimer now s).sessionStartRef = none ∧
    (handleTimer now s).store.sessionStart = none ∧
    (handleTimer now s).sessionTime = 0 ∧
    (0 < calculateElapsedTenths now start ∧
        calculateElapsedTenths now start ≤ MAX_SESSION_TENTHS →
      (handleTimer now s).dailyTotals =
        updateAdd s.dailyTotals (getDateString now) (calculateElapsedTenths now start) ∧
      (handleTimer now s).overallTotal =
        s.overallTotal + calculateElapsedTenths now start ∧
      (handleTimer now s).store.daily =
        updateAdd s.dailyTotals (getDateString now) (calculateElapsedTenths now start) ∧
      (handleTimer now s).store.overall =
        s.overallTotal + calculateElapsedTenths now start) ∧
    (¬(0 < calculateElapsedTenths now start ∧
        calculateElapsedTenths now start ≤ MAX_SESSION_TENTHS) →
      (handleTimer now s).dailyTotals = s.dailyTotals ∧
      (handleTimer now s).overallTotal = s.overallTotal ∧
      (handleTimer now s).store.daily = s.store.daily ∧
      (handleTimer now s).store.overall = s.store.overall) := by
  have hreft : refTruthy s.sessionStartRef = true := by
    rw [href]; simp [refTruthy, bne_iff_ne, hstart]
  by_cases hc : 0 < calculateElapsedTenths now start ∧
      calculateElapsedTenths now start ≤ MAX_SESSION_TENTHS
  · simp [handleTimer, htr, href, commitLedger, hc.1, hc.2, hc, refTruthy, bne_iff_ne, hstart]
  · simp [handleTimer, htr, href, commitLedger, hc, refTruthy, bne_iff_ne, hstart]

/-- Witness for C1: the spec scenario, shifted to a nonzero anchor -
start at 1000000 ms, stop at 1012345 ms commits 123 tenths to the day
key and the overall total, and the anchor is cleared. -/
theorem stop_commits_iff_and_clears_witness :
    (handleTimer 1012345 sActive).sessionStartRef = none ∧
    (handleTimer 1012345 sActive).store.sessionStart = none ∧
    (handleTimer 1012345 sActive).overallTotal = 123 ∧
    (handleTimer 1012345 sActive).dailyTotals = [("1970-01-01", 123)] := by
  have h := stop_commits_iff_and_clears sActive 1012345 1000000 rfl rfl (by decide)
  have hc := h.2.2.2.2.1 (by constructor <;> decide)
  refine ⟨h.2.1, h.2.2.1, ?_, ?_⟩
  · rw [hc.2.1]; decide
  · rw [hc.1]; decide

/-- C2: in an Active state whose recomputed elapsed time exceeds
864000 tenths, both a tick and an explicit stop transition to Idle,
clear the anchor, and leave the daily totals and the overall total
(in memory and in the store) unchanged. -/
theorem over24h_observation_discards (s : AppState) (now start : Int)
    (htr : s.isTracking = true) (href : s.sessionStartRef = some start)
    (hstart : start ≠ 0)
    (hover : MAX_SESSION_TENTHS < calculateElapsedTenths now start) :
    ((timerTick now s).isTracking = false ∧
     (timerTick now s).sessionStartRef = none ∧
     (timerTick now s).store.sessionStart = none ∧
     (timerTick now s).sessionTime = 0 ∧
     (timerTick now s).dailyTotals = s.dailyTotals ∧
     (timerTick now s).overallTotal = s.overallTotal ∧
     (timerTick now s).store.daily = s.store.daily ∧
     (timerTick now s).store.overall = s.store.overall) ∧
    ((handleTimer now s).isTracking = false ∧
     (handleTimer now s).sessionStartRef = none ∧
     (handleTimer now s).store.sessionStart = none ∧
     (handleTimer now s).sessionTime = 0 ∧
     (handleTimer now s).dailyTotals = s.dailyTotals ∧
     (handleTimer now s).overallTotal = s.overallTotal ∧
     (handleTimer now s).store.daily = s.store.daily ∧
     (handleTimer now s).store.overall = s.store.overall) := by
  have hreft : refTruthy s.sessionStartRef = true := by
    rw [href]; simp [refTruthy, bne_iff_ne, hstart]
  have hnc : ¬(0 < calculateElapsedTenths now start ∧
      calculateElapsedTenths now start ≤ MAX_SESSION_TENTHS) := by omega
  constructor
  · simp [timerTick, htr, href, hover, refTruthy, bne_iff_ne, hstart]
  · simp [handleTimer, htr, href, hnc, refTruthy, bne_iff_ne, hstart]

/-- Witness for C2: anchor 1000000, observation at 1000000 + 86400100
ms (elapsed 864001 tenths): tick and stop both discard. -/
theorem over24h_observation_discards_witness :
    (timerTick 87400100 sActive).isTracking = false ∧
    (timerTick 87400100 sActive).store.sessionStart = none ∧
    (handleTimer 87400100 sActive).overallTotal = 0 ∧
    (handleTimer 87400100 sActive).dailyTotals = [] := by
  have h := over24h_observation_discards sActive 87400100 1000000 rfl rfl
    (by decide) (by decide)
  exact ⟨h.1.1, h.1.2.2.1, h.2.2.2.2.2.2.1, h.2.2.2.2.2.1⟩

/-- C3: the ledger invariant `overallTotal = sum(dailyTotals.values())`
is preserved by every operation: `handleTimer` (both the start branch
and the stop branch with its commit), a refresh tick (including
auto-discard), a manual discard, and initialization from a storage
state satisfying the invariant. -/
theorem invariant_preserved (s : AppState) (st : Storage) (now : Int)
    (hs : inv s) (hst : st.overall = sumValues st.daily) :
    inv (handleTimer now s) ∧ inv (timerTick now s) ∧
    inv (handleDiscardSession s) ∧ inv (initState now st) := by
  refine ⟨?_, ?_, ?_, ?_⟩
  · unfold handleTimer inv commitLedger at *
    dsimp only
    split_ifs <;> simp_all [sumValues_updateAdd]
  · unfold timerTick inv at *
    dsimp only
    split_ifs <;> simp_all
  · unfold handleDiscardSession inv at *
    simp_all
  · unfold initState inv at *
    dsimp only
    rcases hss : st.sessionStart with _ | start <;>
      simp only [hss] <;> split_ifs <;> simp_all [sumValues]

/-- Witness for C3: the empty Idle state and the empty storage satisfy
the invariant, and it is preserved by all four operations. -/
theorem invariant_preserved_witness :
    inv (handleTimer 5 sIdle) ∧ inv (timerTick 5 sIdle) ∧
    inv (handleDiscardSession sIdle) ∧ inv (initState 5 ⟨[], 0, none⟩) :=
  invariant_preserved sIdle ⟨[], 0, none⟩ 5 (by decide) (by decide)

/-- C6: committing `a` then `b` (non-negative) on the same date adds
`a + b` to that date's entry and to the overall total, and leaves all
other dates unchanged. -/
theorem commit_twice_adds (d : DailyTotals) (overall : Int) (date : String)
    (a b : Int) (ha : 0 ≤ a) (hb : 0 ≤ b) :
    lookupD (commitLedger (commitLedger d overall date a).1
        (commitLedger d overall date a).2 date b).1 date =
      lookupD d date + (a + b) ∧
    (commitLedger (commitLedger d overall date a).1
        (commitLedger d overall date a).2 date b).2 = overall + (a + b) ∧
    ∀ q, q ≠ date →
      lookupD (commitLedger (commitLedger d overall date a).1
          (commitLedger d overall date a).2 date b).1 q = lookupD d q := by
  unfold commitLedger
  dsimp only
  refine ⟨?_, by ring, ?_⟩
  · rw [lookupD_updateAdd_self, lookupD_updateAdd_self]; ring
  · intro q hq
    rw [lookupD_updateAdd_ne _ _ _ _ hq, lookupD_updateAdd_ne _ _ _ _ hq]

/-- Witness for C6: committing 3 then 4 to a ledger holding 5 on the
date yields 12 on the date entry and on the overall total. -/
theorem commit_twice_adds_witness :
    lookupD (commitLedger (commitLedger [("2024-01-01", (5 : Int))] 5 "2024-01-01" 3).1
        (commitLedger [("2024-01-01", (5 : Int))] 5 "2024-01-01" 3).2 "2024-01-01" 4).1
      "2024-01-01" = 12 ∧
    (commitLedger (commitLedger [("2024-01-01", (5 : Int))] 5 "2024-01-01" 3).1
        (commitLedger [("2024-01-01", (5 : Int))] 5 "2024-01-01" 3).2 "2024-01-01" 4).2 = 12 := by
  have h := commit_twice_adds [("2024-01-01", 5)] 5 "2024-01-01" 3 4 (by decide) (by decide)
  constructor
  · rw [h.1]; decide
  · rw [h.2.1]; decide

/-- Every `getDateString` key has the 10-character `YYYY-MM-DD` shape. -/
theorem getDateString_length (ms : Int) : (getDateString ms).length = 10 := by
  unfold getDateString formatCivil digitChar4 digitChar2
  simp [String.length]

/-- C4 counterexample: for an observer at UTC+1 (offset -60), a stop at
84600000 ms (1970-01-01T23:30Z, local date 1970-01-02) commits the
whole duration under the UTC key `1970-01-01`, not under the observer's
local calendar date. -/
theorem commit_key_not_local_date :
    lookupD (handleTimer 84600000
        ⟨0, true, [], 0, some 84000000, ⟨[], 0, some 84000000⟩⟩).dailyTotals
      (specLocalDateString 84600000 (-60)) = 0 ∧
    lookupD (handleTimer 84600000
        ⟨0, true, [], 0, some 84000000, ⟨[], 0, some 84000000⟩⟩).dailyTotals
      (getDateString 84600000) = 6000 ∧
    specLocalDateString 84600000 (-60) ≠ getDateString 84600000 := by
  refine ⟨by decide, by decide, by decide⟩

/-- C4 amended: every commit is recorded in full under the single
10-character `YYYY-MM-DD` key `getDateString now` - the UTC calendar
date at the instant the stop is evaluated - and is never split: the
stop-date entry grows by the whole elapsed amount and every other date
key is unchanged, whatever the session's start date was. -/
theorem commit_attributed_to_stop_date (s : AppState) (now start : Int)
    (htr : s.isTracking = true) (href : s.sessionStartRef = some start)
    (hstart : start ≠ 0)
    (hpos : 0 < calculateElapsedTenths now start)
    (hmax : calculateElapsedTenths now start ≤ MAX_SESSION_TENTHS) :
    lookupD (handleTimer now s).dailyTotals (getDateString now) =
      lookupD s.dailyTotals (getDateString now) + calculateElapsedTenths now start ∧
    (∀ q, q ≠ getDateString now →
      lookupD (handleTimer now s).dailyTotals q = lookupD s.dailyTotals q) ∧
    (getDateString now).length = 10 := by
  have hcommit : (handleTimer now s).dailyTotals =
      updateAdd s.dailyTotals (getDateString now) (calculateElapsedTenths now start) := by
    simp [handleTimer, htr, href, commitLedger, refTruthy, bne_iff_ne, hstart, hpos, hmax]
  refine ⟨?_, ?_, getDateString_length now⟩
  · rw [hcommit, lookupD_updateAdd_self]
  · intro q hq
    rw [hcommit, lookupD_updateAdd_ne _ _ _ _ hq]

/-- Witness for the amended C4: the concrete stop at 1012345 ms puts
all 123 tenths under `getDateString 1012345` and nothing under the
next day's key. -/
theorem commit_attributed_to_stop_date_witness :
    lookupD (handleTimer 1012345 sActive).dailyTotals (getDateString 1012345) = 123 ∧
    lookupD (handleTimer 1012345 sActive).dailyTotals "1970-01-02" = 0 ∧
    (getDateString 1012345).length = 10 := by
  have h := commit_attributed_to_stop_date sActive 1012345 1000000 rfl rfl
    (by decide) (by decide) (by decide)
  refine ⟨?_, ?_, h.2.2⟩
  · rw [h.1]; decide
  · rw [h.2.1 "1970-01-02" (by decide)]; decide

/-- C5: initialization with a persisted (truthy) anchor recomputes the
elapsed time immediately: if it exceeds 864000 tenths the anchor is
cleared and the machine stays Idle; otherwise it resumes Active with
the recovered elapsed value. -/
theorem init_restores_or_discards (st : Storage) (now start : Int)
    (hss : st.sessionStart = some start) (hstart : start ≠ 0) :
    (MAX_SESSION_TENTHS < calculateElapsedTenths now start →
      (initState now st).isTracking = false ∧
      (initState now st).sessionStartRef = none ∧
      (initState now st).store.sessionStart = none ∧
      (initState now st).sessionTime = 0) ∧
    (¬(MAX_SESSION_TENTHS < calculateElapsedTenths now start) →
      (initState now st).isTracking = true ∧
      (initState now st).sessionStartRef = some start ∧
      (initState now st).sessionTime = calculateElapsedTenths now start ∧
      (initState now st).store.sessionStart = some start) := by
  constructor <;> intro h
  · simp only [initState, hss]
    rw [if_pos hstart, if_pos h]
    split_ifs <;> simp
  · simp only [initState, hss]
    rw [if_pos hstart, if_neg h]
    split_ifs <;> simp [hss]

/-- Witness for C5: reloading at 1000000 ms with a persisted anchor of
now - 5000 ms resumes Active with elapsed 50 tenths. -/
theorem init_restores_or_discards_witness :
    (initState 1000000 ⟨[], 0, some 995000⟩).isTracking = true ∧
    (initState 1000000 ⟨[], 0, some 995000⟩).sessionTime = 50 := by
  have h := (init_restores_or_discards ⟨[], 0, some 995000⟩ 1000000 995000 rfl
    (by decide)).2 (by decide)
  exact ⟨h.1, by rw [h.2.2.1]; decide⟩

/-- C7 counterexample: for an observer at UTC+2 (offset -120) at local
Monday 1970-01-05 00:30 (340200000 ms), the code's week window is the
UTC dates 1970-01-04..1970-01-10, not the Monday-starting week
1970-01-05..1970-01-11; with 700 tenths recorded on 1970-01-04 the
code's weekAverage is 100 while the week of the spec sums to 0. -/
theorem weekAverage_not_spec_week :
    calculateWeekAverage [("1970-01-04", 700)] 340200000 (-120) = 100 ∧
    specWeekAverage [("1970-01-04", 700)] 340200000 (-120) = 0 ∧
    calculateWeekAverage [("1970-01-04", 700)] 340200000 (-120) ≠
      specWeekAverage [("1970-01-04", 700)] 340200000 (-120) := by
  have h1 : sumOverKeys [("1970-01-04", 700)] (getDatesInWeek 340200000 (-120)) = 700 := by
    decide
  have h2 : sumOverKeys [("1970-01-04", 700)] (specWeekDates 340200000 (-120)) = 0 := by
    decide
  have e1 : calculateWeekAverage [("1970-01-04", 700)] 340200000 (-120) = 100 := by
    unfold calculateWeekAverage
    rw [h1]
    norm_num
  have e2 : specWeekAverage [("1970-01-04", 700)] 340200000 (-120) = 0 := by
    unfold specWeekAverage
    rw [h2]
    norm_num
  refine ⟨e1, e2, ?_⟩
  rw [e1, e2]
  norm_num

/-- C7 amended: for an observer at UTC offset 0, `calculateWeekAverage`
equals the sum of the entries of the 7 calendar dates of the
Monday-starting week containing `now` divided by 7 (absent dates count
as 0, and the divisor is always 7). -/
theorem weekAverage_offset0 (d : DailyTotals) (now : Int) :
    calculateWeekAverage d now 0 = specWeekAverage d now 0 := by
  unfold calculateWeekAverage specWeekAverage
  rw [getDatesInWeek_offset0]

/-- C8: `calculateOverallAverage` of the empty mapping is 0 (no
division by zero), and on a nonempty mapping with distinct keys whose
overall total satisfies the ledger invariant it equals the overall
total divided by the number of recorded dates. -/
theorem overallAverage_eq (d : DailyTotals) (overall : Int)
    (hnd : (keysOf d).Nodup) (hov : overall = sumValues d) :
    calculateOverallAverage [] = 0 ∧
    (d ≠ [] →
      calculateOverallAverage d = (overall : ℚ) / ((keysOf d).length : ℚ)) := by
  refine ⟨by simp [calculateOverallAverage, keysOf], fun hne => ?_⟩
  unfold calculateOverallAverage
  rw [if_neg (by simp [keysOf, hne]), sumOverKeys_keysOf d hnd, hov]

/-- Witness for C8: two recorded dates holding 10 and 20 tenths with
overall total 30 average to 15; the empty mapping averages to 0. -/
theorem overallAverage_eq_witness :
    calculateOverallAverage [] = 0 ∧
    calculateOverallAverage [("2024-01-01", (10 : Int)), ("2024-01-02", 20)] = 15 := by
  have h := overallAverage_eq [("2024-01-01", 10), ("2024-01-02", 20)] 30
    (by decide) (by decide)
  refine ⟨h.1, ?_⟩
  rw [h.2 (by decide)]
  norm_num [keysOf]

/-- C9 (the code at the failing inputs): a corrupt JSON daily value
makes the whole load fail (`JSON.parse` is never caught), and a
non-numeric overall-total string parses to NaN instead of resetting to
0; only the session-start entry behaves as absent, because NaN is
falsy. -/
theorem load_malformed_fails :
    load 5 ⟨DailyStored.corrupt, some "42", some "1000"⟩ = Except.error () ∧
    getOverallTotalRaw (some "abc") = JSNum.nan ∧
    getSessionStartRaw (some "abc") = some JSNum.nan ∧
    JSNum.truthy JSNum.nan = false :=
  ⟨rfl, rfl, rfl, rfl⟩

/-- C10: a persisted session-start string `"0"` parses to the number 0,
which is falsy, so the restore path's truthiness test skips restoration
entirely: the machine stays Idle, no ref is set, no elapsed time is
recovered, and the stored value is not even cleared. -/
theorem load_zero_anchor_skipped (now : Int) (rawD : DailyStored)
    (rawO : Option String) (r : LoadResult)
    (h : load now ⟨rawD, rawO, some "0"⟩ = Except.ok r) :
    r.isTracking = false ∧ r.sessionStartRef = none ∧ r.sessionTime = 0 ∧
    r.sessionCleared = false := by
  have key : ∀ (ld : DailyTotals) (r2 : LoadResult),
      ((Except.ok
        (if ld.length > 0 ∨ (getOverallTotalRaw rawO).gtZero = true then
          ({ dailyTotals := ld, overallTotal := getOverallTotalRaw rawO, isTracking := false,
             sessionTime := 0, sessionStartRef := none, sessionCleared := false } : LoadResult)
        else ⟨[], JSNum.num 0, false, 0, none, false⟩) : Except Unit LoadResult) = Except.ok r2) →
      r2.isTracking = false ∧ r2.sessionStartRef = none ∧ r2.sessionTime = 0 ∧
      r2.sessionCleared = false := by
    intro ld r2 hh
    rw [Except.ok.injEq] at hh
    subst hh
    split_ifs <;> simp
  rcases rawD with _ | d | _
  · exact key [] r h
  · exact key d r h
  · simp [load, getDailyTotalsRaw] at h

/-- Witness for C10: loading with only the session-start entry set to
`"0"` succeeds and yields the Idle result. -/
theorem load_zero_anchor_skipped_witness :
    (⟨[], JSNum.num 0, false, 0, none, false⟩ : LoadResult).isTracking = false ∧
    (⟨[], JSNum.num 0, false, 0, none, false⟩ : LoadResult).sessionStartRef = none ∧
    (⟨[], JSNum.num 0, false, 0, none, false⟩ : LoadResult).sessionTime = 0 ∧
    (⟨[], JSNum.num 0, false, 0, none, false⟩ : LoadResult).sessionCleared = false :=
  load_zero_anchor_skipped 5 DailyStored.absent none _ (by rfl)

end GameTime
